import Mathlib

/-!
Verification of the ingress-target-prober reconciliation loop (main.go).

The HTTP side effects are modelled by an oracle `respond : String → Option Nat`
giving, for each probed IP, `none` when the GET request fails with a transport
error (connection refused, timeout, TLS or DNS failure) and `some code` when it
completes with status `code`.  The Kubernetes API is modelled by a store of
`Ingress` records together with oracles for the outcome of the List call
(`listOk`) and of each Patch call (`patchOk`).
-/

namespace IngressTargetProber

/-- One Ingress object, reduced to the fields `tick` reads: its identity and its
`annotations` map.  A Go `nil` map is `none`; a non-nil map is an association
list looked up by `lookupAnn`. -/
structure Ingress where
  ns : String
  name : String
  annotations : Option (List (String × String))
deriving DecidableEq, Repr

/-- Go map read `m[k]` on an association list (first binding wins, as Go map
keys are unique). -/
def lookupAnn (k : String) : List (String × String) → Option String
  | [] => none
  | (k0, v0) :: rest => if k0 = k then some v0 else lookupAnn k rest

/-- Go map write `m[k] = v`: replace the binding of `k` if present, else add it. -/
def mapInsert (anns : List (String × String)) (k v : String) : List (String × String) :=
  match anns with
  | [] => [(k, v)]
  | (k0, v0) :: rest => if k0 = k then (k, v) :: rest else (k0, v0) :: mapInsert rest k v

/-- The `Runner` configuration (main.go lines 48 to 58).  The struct has no
host-header field: `HealthyIPs` builds its requests from scheme, IP, port and
path only. -/
structure Runner where
  ingressClassAnnotationKey : String
  ingressClass : String
  annotationKey : String
  ips : List String
  urlScheme : String
  httpPath : String
deriving DecidableEq, Repr

/-- main.go lines 100 to 105. -/
def portForScheme (s : String) : String :=
  if s = "https" then "443" else "80"

/-- net.JoinHostPort: bracket the host when it contains a colon. -/
def joinHostPort (host port : String) : String :=
  if host.data.contains ':' then "[" ++ host ++ "]:" ++ port else host ++ ":" ++ port

/-- One GET request as issued by `HealthyIPs` (main.go line 84).  `hostOverride`
records a `req.Host` assignment; the code never makes one, so the field is
always `none`. -/
structure ProbeRequest where
  method : String
  url : String
  hostOverride : Option String
deriving DecidableEq, Repr

/-- The request built for one IP (main.go lines 83 to 84): a GET on
`scheme://host:port/path` with no Host override. -/
def probeRequest (urlScheme httpPath : String) (ip : String) : ProbeRequest :=
  { method := "GET"
    url := urlScheme ++ "://" ++ joinHostPort ip (portForScheme urlScheme) ++ httpPath
    hostOverride := none }

/-- The response status makes the target healthy (main.go line 90), given the
request outcome. -/
def isHealthy (respond : String → Option Nat) (ip : String) : Bool :=
  match respond ip with
  | none => false
  | some code => decide (200 ≤ code ∧ code < 300)

/-- One iteration of the probe loop (main.go lines 82 to 93): issue the request,
skip the target on transport error, keep it when the status is in [200,300). -/
def probeStep (respond : String → Option Nat) (urlScheme httpPath : String)
    (acc : List ProbeRequest × List String) (ip : String) :
    List ProbeRequest × List String :=
  let req := probeRequest urlScheme httpPath ip
  match respond ip with
  | none => (acc.1 ++ [req], acc.2)
  | some code =>
    (acc.1 ++ [req], if 200 ≤ code ∧ code < 300 then acc.2 ++ [ip] else acc.2)

/-- The whole probe loop: the trace of requests issued and the healthy list
accumulated, both in list order. -/
def probeRun (r : Runner) (respond : String → Option Nat) :
    List ProbeRequest × List String :=
  r.ips.foldl (probeStep respond r.urlScheme r.httpPath) ([], [])

/-- main.go lines 80 to 98: `HealthyIPs` returns the healthy sublist, or the
`no healthy IP found` error when it is empty. -/
def Runner.HealthyIPs (r : Runner) (respond : String → Option Nat) :
    Except String (List String) :=
  let healthy := (probeRun r respond).2
  if healthy.length = 0 then Except.error "no healthy IP found"
  else Except.ok healthy

/-- main.go line 119: the desired annotation value, `strings.Join(healthyIPs, ",")`. -/
def desired (healthyIPs : List String) : String :=
  String.intercalate "," healthyIPs

/-- main.go lines 281 to 286 (the source's own `max` on int). -/
def max (a b : Int) : Int :=
  if a > b then a else b

/-- main.go line 109: the deadline handed to context.WithTimeout for one cycle,
computed from the global `-timeout` flag value. -/
def cycleTimeout (flagTimeout : Int) (ips : List String) : Int :=
  flagTimeout * max 1 (ips.length : Int)

/-- main.go lines 254 to 262: environment override of a duration.  The
environment value is modelled post-parse: `some d` when the variable is set and
parses, `none` when it is unset or fails to parse. -/
def getDuration (envParsed : Option Int) (fallback : Int) : Int :=
  match envParsed with
  | some d => d
  | none => fallback

/-- The body of the per-Ingress loop in `tick` (main.go lines 127 to 154), for
one object: the object's state in the store after the iteration, and the Patch
call issued for it, if any (identified by namespace and name).  Objects with a
nil annotations map or whose class annotation is absent or differs are skipped;
an object whose current value already equals `d` is skipped; otherwise a patch
is issued, and only a successful patch changes the store. -/
def tickItem (r : Runner) (d : String) (patchOk : Ingress → Bool) (ing : Ingress) :
    Ingress × Option (String × String) :=
  match ing.annotations with
  | none => (ing, none)
  | some anns =>
    match lookupAnn r.ingressClassAnnotationKey anns with
    | none => (ing, none)
    | some cls =>
      if cls = r.ingressClass then
        if (lookupAnn r.annotationKey anns).getD "" = d then (ing, none)
        else if patchOk ing then
          ({ ing with annotations := some (mapInsert anns r.annotationKey d) },
            some (ing.ns, ing.name))
        else (ing, some (ing.ns, ing.name))
      else (ing, none)

/-- The observable trace of one `tick`: the store after the cycle, whether the
List call was made, and the Patch calls issued in order. -/
structure TickTrace where
  store : List Ingress
  listCalled : Bool
  patchCalls : List (String × String)
deriving DecidableEq, Repr

/-- main.go lines 107 to 155: one reconciliation cycle.  On probe failure the
cycle returns before the List call; on List failure it returns before any
Patch; otherwise every stored object is processed independently by `tickItem`. -/
def Runner.tick (r : Runner) (respond : String → Option Nat) (listOk : Bool)
    (patchOk : Ingress → Bool) (store : List Ingress) : TickTrace :=
  match r.HealthyIPs respond with
  | Except.error _ => { store := store, listCalled := false, patchCalls := [] }
  | Except.ok healthyIPs =>
    let d := desired healthyIPs
    if listOk then
      { store := store.map (fun ing => (tickItem r d patchOk ing).1)
        listCalled := true
        patchCalls := store.filterMap (fun ing => (tickItem r d patchOk ing).2) }
    else
      { store := store, listCalled := true, patchCalls := [] }

/-- The class-matching predicate of main.go lines 130 to 135: annotations
non-nil and the class annotation present and exactly equal to the configured
class. -/
def classMatches (r : Runner) (ing : Ingress) : Bool :=
  match ing.annotations with
  | none => false
  | some anns =>
    match lookupAnn r.ingressClassAnnotationKey anns with
    | none => false
    | some cls => decide (cls = r.ingressClass)

/-- An object for which `tick` issues a patch: class matches and the current
value under the annotation key (empty when absent) differs from the desired
value. -/
def needsPatch (r : Runner) (d : String) (ing : Ingress) : Bool :=
  match ing.annotations with
  | none => false
  | some anns =>
    match lookupAnn r.ingressClassAnnotationKey anns with
    | none => false
    | some cls =>
      decide (cls = r.ingressClass) && decide ((lookupAnn r.annotationKey anns).getD "" ≠ d)

/-- Go strings.Split with a one-character separator, on the character list:
splitting the empty string gives one empty field; every separator occurrence
starts a new field. -/
def splitChars (sep : Char) : List Char → List (List Char)
  | [] => [[]]
  | c :: rest =>
    match splitChars sep rest with
    | [] => if c = sep then [[], []] else [[c]]
    | h :: t => if c = sep then [] :: h :: t else (c :: h) :: t

/-- Go strings.Split(csv, ",") as used in main.go line 271. -/
def split (csv : String) : List String :=
  (splitChars ',' csv.data).map (fun l => String.mk l)

/-- The white-space class of Go strings.TrimSpace, restricted to the ASCII
space characters relevant to the configuration strings at hand. -/
def isSpace (c : Char) : Bool :=
  c = ' ' || c = '\t' || c = '\n' || c = '\x0b' || c = '\x0c' || c = '\r'

/-- Go strings.TrimSpace: drop leading and trailing white space. -/
def trimSpace (s : String) : String :=
  String.mk (((s.data.dropWhile isSpace).reverse.dropWhile isSpace).reverse)

/-- main.go lines 270 to 280: split the raw comma-separated configuration on
commas, trim each piece, drop empties, preserving order. -/
def splitAndTrim (csv : String) : List String :=
  let parts := split csv
  parts.foldl (fun out p => let s := trimSpace p; if s ≠ "" then out ++ [s] else out) []

/-- main.go lines 192 to 196: startup is fatal iff the raw IPS string is empty. -/
def missingIPs (ipCSV : String) : Bool :=
  ipCSV == ""

/-- Fixture oracle for the spec's concrete scenario: 10.0.0.1 answers 200,
10.0.0.2 answers 500, everything else fails with a transport error. -/
def respondEx (ip : String) : Option Nat :=
  if ip = "10.0.0.1" then some 200 else if ip = "10.0.0.2" then some 500 else none

/-- Fixture oracle for the spec's fail-safe scenario: every endpoint answers 503. -/
def respond503 (_ip : String) : Option Nat :=
  some 503

/-- Fixture runner with the default keys and the two scenario targets. -/
def runnerEx : Runner :=
  { ingressClassAnnotationKey := "kubernetes.io/ingress.class"
    ingressClass := "public-nginx"
    annotationKey := "external-dns.alpha.kubernetes.io/target"
    ips := ["10.0.0.1", "10.0.0.2"]
    urlScheme := "http"
    httpPath := "/health" }

/-- Fixture runner matching the test case that sets a host header on a single
target probed at the root path. -/
def runnerSingle : Runner :=
  { ingressClassAnnotationKey := "kubernetes.io/ingress.class"
    ingressClass := "public-nginx"
    annotationKey := "external-dns.alpha.kubernetes.io/target"
    ips := ["127.0.0.1"]
    urlScheme := "http"
    httpPath := "/" }

/-- Fixture: a matching Ingress whose target annotation holds the stale value. -/
def ingStale : Ingress :=
  { ns := "default", name := "a"
    annotations := some [("kubernetes.io/ingress.class", "public-nginx"),
                         ("external-dns.alpha.kubernetes.io/target", "10.0.0.2")] }

/-- Fixture: an Ingress with a nil annotations map. -/
def ingNil : Ingress :=
  { ns := "default", name := "b", annotations := none }

/-- Fixture: an Ingress of a different class. -/
def ingOther : Ingress :=
  { ns := "default", name := "c"
    annotations := some [("kubernetes.io/ingress.class", "internal")] }

/-- Fixture: a second matching Ingress with no target annotation yet. -/
def ingFresh : Ingress :=
  { ns := "prod", name := "d"
    annotations := some [("kubernetes.io/ingress.class", "public-nginx")] }

theorem probeRun_go (respond : String → Option Nat) (urlScheme httpPath : String) :
    ∀ (ips : List String) (reqs : List ProbeRequest) (hs : List String),
      ips.foldl (probeStep respond urlScheme httpPath) (reqs, hs)
        = (reqs ++ ips.map (probeRequest urlScheme httpPath),
            hs ++ ips.filter (isHealthy respond)) := by
  intro ips
  induction ips with
  | nil => intro reqs hs; simp
  | cons ip rest ih =>
    intro reqs hs
    rw [List.foldl_cons]
    cases hip : respond ip with
    | none =>
      rw [show probeStep respond urlScheme httpPath (reqs, hs) ip
            = (reqs ++ [probeRequest urlScheme httpPath ip], hs) by
          simp [probeStep, hip]]
      rw [ih]
      simp [List.filter_cons, isHealthy, hip]
    | some code =>
      by_cases hcode : 200 ≤ code ∧ code < 300
      · rw [show probeStep respond urlScheme httpPath (reqs, hs) ip
              = (reqs ++ [probeRequest urlScheme httpPath ip], hs ++ [ip]) by
            simp [probeStep, hip, hcode]]
        rw [ih]
        simp [List.filter_cons, isHealthy, hip, hcode]
      · rw [show probeStep respond urlScheme httpPath (reqs, hs) ip
              = (reqs ++ [probeRequest urlScheme httpPath ip], hs) by
            simp [probeStep, hip, hcode]]
        rw [ih]
        simp [List.filter_cons, isHealthy, hip, hcode]

theorem probeRun_eq (r : Runner) (respond : String → Option Nat) :
    probeRun r respond
      = (r.ips.map (probeRequest r.urlScheme r.httpPath),
          r.ips.filter (isHealthy respond)) := by
  unfold probeRun
  simpa using probeRun_go respond r.urlScheme r.httpPath r.ips [] []

theorem HealthyIPs_eq (r : Runner) (respond : String → Option Nat) :
    r.HealthyIPs respond
      = if r.ips.filter (isHealthy respond) = [] then Except.error "no healthy IP found"
        else Except.ok (r.ips.filter (isHealthy respond)) := by
  unfold Runner.HealthyIPs
  rw [probeRun_eq]
  by_cases h : r.ips.filter (isHealthy respond) = []
  · simp [h]
  · simp [h, List.length_eq_zero, if_neg h]

theorem lookupAnn_mapInsert_self (anns : List (String × String)) (k v : String) :
    lookupAnn k (mapInsert anns k v) = some v := by
  induction anns with
  | nil => simp [mapInsert, lookupAnn]
  | cons kv rest ih =>
    obtain ⟨k0, v0⟩ := kv
    by_cases h : k0 = k
    · simp [mapInsert, lookupAnn, h]
    · simp [mapInsert, lookupAnn, h, ih]

theorem lookupAnn_mapInsert_ne (anns : List (String × String)) (k v k' : String)
    (hne : k' ≠ k) : lookupAnn k' (mapInsert anns k v) = lookupAnn k' anns := by
  induction anns with
  | nil =>
    simp only [mapInsert, lookupAnn]
    rw [if_neg (fun h : k = k' => hne h.symm)]
  | cons kv rest ih =>
    obtain ⟨k0, v0⟩ := kv
    simp only [mapInsert]
    by_cases h : k0 = k
    · subst h
      simp only [if_pos rfl, lookupAnn]
      rw [if_neg (fun h : k0 = k' => hne h.symm), if_neg (fun h : k0 = k' => hne h.symm)]
    · simp only [if_neg h, lookupAnn]
      by_cases h' : k0 = k'
      · simp [h']
      · simp [h', ih]

theorem tickItem_snd (r : Runner) (d : String) (p : Ingress → Bool) (ing : Ingress) :
    (tickItem r d p ing).2
      = if needsPatch r d ing then some (ing.ns, ing.name) else none := by
  obtain ⟨ns, name, anns⟩ := ing
  cases anns with
  | none => simp [tickItem, needsPatch]
  | some anns =>
    simp only [tickItem, needsPatch]
    cases hcls : lookupAnn r.ingressClassAnnotationKey anns with
    | none => simp
    | some cls =>
      by_cases h1 : cls = r.ingressClass
      · by_cases h2 : (lookupAnn r.annotationKey anns).getD "" = d
        · simp [h1, h2]
        · by_cases hp : p ⟨ns, name, some anns⟩ <;> simp [h1, h2, hp]
      · simp [h1]

theorem tickItem_fst_nomatch (r : Runner) (d : String) (p : Ingress → Bool) (ing : Ingress)
    (h : classMatches r ing = false) : (tickItem r d p ing).1 = ing := by
  obtain ⟨ns, name, anns⟩ := ing
  cases anns with
  | none => simp [tickItem]
  | some anns =>
    simp only [classMatches] at h
    simp only [tickItem]
    cases hcls : lookupAnn r.ingressClassAnnotationKey anns with
    | none => simp
    | some cls =>
      rw [hcls] at h
      simp only [decide_eq_false_iff_not] at h
      simp [h]

theorem tickItem_twice (r : Runner) (d : String) (ing : Ingress) :
    tickItem r d (fun _ => true) ((tickItem r d (fun _ => true) ing).1)
      = ((tickItem r d (fun _ => true) ing).1, none) := by
  obtain ⟨ns, name, anns⟩ := ing
  cases anns with
  | none => simp [tickItem]
  | some anns =>
    cases hcls : lookupAnn r.ingressClassAnnotationKey anns with
    | none =>
      have hfst : tickItem r d (fun _ => true) ⟨ns, name, some anns⟩
          = (⟨ns, name, some anns⟩, none) := by simp [tickItem, hcls]
      rw [hfst]
      simpa using hfst
    | some cls =>
      by_cases h1 : cls = r.ingressClass
      · by_cases h2 : (lookupAnn r.annotationKey anns).getD "" = d
        · have hfst : tickItem r d (fun _ => true) ⟨ns, name, some anns⟩
              = (⟨ns, name, some anns⟩, none) := by simp [tickItem, hcls, h1, h2]
          rw [hfst]
          simpa using hfst
        · have hfst : tickItem r d (fun _ => true) ⟨ns, name, some anns⟩
              = (⟨ns, name, some (mapInsert anns r.annotationKey d)⟩, some (ns, name)) := by
            simp [tickItem, hcls, h1, h2]
          rw [hfst]
          by_cases hk : r.ingressClassAnnotationKey = r.annotationKey
          · by_cases hd : d = r.ingressClass <;>
              simp [tickItem, hk, lookupAnn_mapInsert_self, hd]
          · have hlk : lookupAnn r.ingressClassAnnotationKey
                (mapInsert anns r.annotationKey d) = some cls := by
              rw [lookupAnn_mapInsert_ne anns r.annotationKey d
                r.ingressClassAnnotationKey hk]
              exact hcls
            simp [tickItem, hlk, h1, lookupAnn_mapInsert_self]
      · have hfst : tickItem r d (fun _ => true) ⟨ns, name, some anns⟩
            = (⟨ns, name, some anns⟩, none) := by simp [tickItem, hcls, h1]
        rw [hfst]
        simpa using hfst

theorem tick_noHealthy_eq (r : Runner) (respond : String → Option Nat) (listOk : Bool)
    (p : Ingress → Bool) (store : List Ingress)
    (h : r.ips.filter (isHealthy respond) = []) :
    r.tick respond listOk p store
      = { store := store, listCalled := false, patchCalls := [] } := by
  unfold Runner.tick
  rw [HealthyIPs_eq, if_pos h]

theorem tick_ok_eq (r : Runner) (respond : String → Option Nat)
    (p : Ingress → Bool) (store : List Ingress)
    (h : r.ips.filter (isHealthy respond) ≠ []) :
    r.tick respond true p store
      = { store := store.map
            (fun ing => (tickItem r (desired (r.ips.filter (isHealthy respond))) p ing).1)
          listCalled := true
          patchCalls := store.filterMap
            (fun ing => (tickItem r (desired (r.ips.filter (isHealthy respond))) p ing).2) } := by
  unfold Runner.tick
  rw [HealthyIPs_eq, if_neg h]
  simp

theorem tick_listFail_eq (r : Runner) (respond : String → Option Nat)
    (p : Ingress → Bool) (store : List Ingress)
    (h : r.ips.filter (isHealthy respond) ≠ []) :
    r.tick respond false p store
      = { store := store, listCalled := true, patchCalls := [] } := by
  unfold Runner.tick
  rw [HealthyIPs_eq, if_neg h]
  simp

theorem tickItem_congr (r : Runner) (d : String) (p1 p2 : Ingress → Bool)
    (ing : Ingress) (h : p1 ing = p2 ing) :
    tickItem r d p1 ing = tickItem r d p2 ing := by
  obtain ⟨ns, name, anns⟩ := ing
  cases anns with
  | none => simp [tickItem]
  | some anns => simp only [tickItem, h]

theorem splitAndTrim_go :
    ∀ (parts : List String) (out : List String),
      parts.foldl (fun out p => let s := trimSpace p; if s ≠ "" then out ++ [s] else out) out
        = out ++ (parts.map trimSpace).filter (fun s => decide (s ≠ "")) := by
  intro parts
  induction parts with
  | nil => intro out; simp
  | cons p rest ih =>
    intro out
    rw [List.foldl_cons]
    by_cases h : trimSpace p = ""
    · rw [show (let s := trimSpace p; if s ≠ "" then out ++ [s] else out) = out by simp [h]]
      rw [ih]
      simp [h]
    · rw [show (let s := trimSpace p; if s ≠ "" then out ++ [s] else out)
            = out ++ [trimSpace p] by simp [h]]
      rw [ih]
      simp [h]

theorem splitAndTrim_eq (csv : String) :
    splitAndTrim csv = ((split csv).map trimSpace).filter (fun s => decide (s ≠ "")) := by
  unfold splitAndTrim
  simpa using splitAndTrim_go (split csv) []

/-- C1: for every ordered target list, `HealthyIPs` issues exactly one GET per
target, in list order (the request trace equals the input list mapped to its
request), and on success returns exactly the ordered sublist of the input whose
single request completed without transport error with a status in [200,300);
a transport error or non-2xx status disqualifies the target without retry. -/
theorem HealthyIPs_ordered_sublist (r : Runner) (respond : String → Option Nat) :
    (probeRun r respond).1 = r.ips.map (probeRequest r.urlScheme r.httpPath)
    ∧ ∀ l, r.HealthyIPs respond = Except.ok l →
        l = r.ips.filter (isHealthy respond)
        ∧ l.Sublist r.ips
        ∧ ∀ ip, ip ∈ l ↔ ip ∈ r.ips ∧ isHealthy respond ip = true := by
  constructor
  · rw [probeRun_eq]
  · intro l hl
    rw [HealthyIPs_eq] at hl
    by_cases h : r.ips.filter (isHealthy respond) = []
    · rw [if_pos h] at hl
      cases hl
    · rw [if_neg h] at hl
      have hfl : r.ips.filter (isHealthy respond) = l := by injection hl
      subst hfl
      refine ⟨rfl, List.filter_sublist _, fun ip => ?_⟩
      simp [List.mem_filter]

/-- C1 witness: in the spec scenario, the probe issues the two requests in
order and returns exactly the 200-answering target. -/
theorem HealthyIPs_ordered_sublist_witness :
    (probeRun runnerEx respondEx).1
      = runnerEx.ips.map (probeRequest runnerEx.urlScheme runnerEx.httpPath)
    ∧ ["10.0.0.1"] = runnerEx.ips.filter (isHealthy respondEx)
    ∧ List.Sublist ["10.0.0.1"] runnerEx.ips := by
  have h := HealthyIPs_ordered_sublist runnerEx respondEx
  have h2 := h.2 ["10.0.0.1"] (by rfl)
  exact ⟨h.1, h2.1, h2.2.1⟩

/-- C2: `HealthyIPs` fails with the no-healthy-IP error iff the healthy sublist
is empty; in particular it fails on the empty target list, and a successful
result is never empty. -/
theorem HealthyIPs_error_iff (r : Runner) (respond : String → Option Nat) :
    (r.HealthyIPs respond = Except.error "no healthy IP found"
        ↔ r.ips.filter (isHealthy respond) = [])
    ∧ (r.ips = [] → r.HealthyIPs respond = Except.error "no healthy IP found")
    ∧ ∀ l, r.HealthyIPs respond = Except.ok l → l ≠ [] := by
  refine ⟨?_, ?_, ?_⟩
  · rw [HealthyIPs_eq]
    by_cases h : r.ips.filter (isHealthy respond) = [] <;> simp [h]
  · intro h
    rw [HealthyIPs_eq]
    simp [h]
  · intro l hl
    rw [HealthyIPs_eq] at hl
    by_cases h : r.ips.filter (isHealthy respond) = []
    · rw [if_pos h] at hl
      cases hl
    · rw [if_neg h] at hl
      have hfl : r.ips.filter (isHealthy respond) = l := by injection hl
      rw [← hfl]
      exact h

/-- C2 witness: with every endpoint answering 503 the probe fails, and in the
mixed scenario the successful result is non-empty. -/
theorem HealthyIPs_error_iff_witness :
    runnerEx.HealthyIPs respond503 = Except.error "no healthy IP found"
    ∧ (["10.0.0.1"] : List String) ≠ [] := by
  refine ⟨(HealthyIPs_error_iff runnerEx respond503).1.mpr (by rfl), ?_⟩
  exact (HealthyIPs_error_iff runnerEx respondEx).2.2 ["10.0.0.1"] (by rfl)

/-- C3: a cycle in which the probe fails ends immediately: the List call is
never made, no Patch call is issued, and the store — hence every Ingress
annotation — is exactly as it was. -/
theorem tick_probeFail_leaves_annotations (r : Runner) (respond : String → Option Nat)
    (listOk : Bool) (patchOk : Ingress → Bool) (store : List Ingress) (err : String)
    (h : r.HealthyIPs respond = Except.error err) :
    r.tick respond listOk patchOk store
      = { store := store, listCalled := false, patchCalls := [] } := by
  unfold Runner.tick
  rw [h]

/-- C3 witness: both endpoints answer 503, so the cycle leaves the stale
annotation of the stored Ingress untouched and issues no call. -/
theorem tick_probeFail_leaves_annotations_witness :
    runnerEx.tick respond503 true (fun _ => true) [ingStale, ingNil]
      = { store := [ingStale, ingNil], listCalled := false, patchCalls := [] } :=
  tick_probeFail_leaves_annotations runnerEx respond503 true (fun _ => true)
    [ingStale, ingNil] "no healthy IP found" (by rfl)

/-- C4: the desired annotation value is the comma-join of the healthy sublist
in original input order, and any probe run yielding the same healthy list
yields the identical string. -/
theorem desired_is_ordered_join (r : Runner) (respond respond' : String → Option Nat)
    (l : List String) (h : r.HealthyIPs respond = Except.ok l) :
    l ≠ []
    ∧ desired l = String.intercalate "," (r.ips.filter (isHealthy respond))
    ∧ (r.HealthyIPs respond' = Except.ok l →
        desired l = String.intercalate "," (r.ips.filter (isHealthy respond'))) := by
  rw [HealthyIPs_eq] at h
  by_cases hf : r.ips.filter (isHealthy respond) = []
  · rw [if_pos hf] at h
    cases h
  · rw [if_neg hf] at h
    have hfl : r.ips.filter (isHealthy respond) = l := by injection h
    refine ⟨by rw [← hfl]; exact hf, by rw [← hfl]; rfl, ?_⟩
    intro h'
    rw [HealthyIPs_eq] at h'
    by_cases hf' : r.ips.filter (isHealthy respond') = []
    · rw [if_pos hf'] at h'
      cases h'
    · rw [if_neg hf'] at h'
      have hfl' : r.ips.filter (isHealthy respond') = l := by injection h'
      rw [← hfl']
      rfl

/-- C4 witness: in the spec scenario the desired value is the single healthy
address, byte-identical across the two runs. -/
theorem desired_is_ordered_join_witness :
    desired ["10.0.0.1"] = String.intercalate "," (runnerEx.ips.filter (isHealthy respondEx))
    ∧ desired ["10.0.0.1"] = "10.0.0.1" := by
  refine ⟨(desired_is_ordered_join runnerEx respondEx respondEx ["10.0.0.1"] (by rfl)).2.1, ?_⟩
  decide

/-- C5: in a successful cycle a Patch call is issued for an object iff its class
matches and its current value under the annotation key differs from the desired
value; and repeating the cycle against unchanged backend health (all first-run
patches succeeding) issues no second write. -/
theorem patch_iff_value_differs (r : Runner) (respond : String → Option Nat)
    (patchOk : Ingress → Bool) (store : List Ingress)
    (h : r.ips.filter (isHealthy respond) ≠ []) :
    (r.tick respond true patchOk store).patchCalls
      = store.filterMap (fun ing =>
          if needsPatch r (desired (r.ips.filter (isHealthy respond))) ing
          then some (ing.ns, ing.name) else none)
    ∧ (r.tick respond true (fun _ => true)
        (r.tick respond true (fun _ => true) store).store).patchCalls = [] := by
  constructor
  · rw [tick_ok_eq r respond patchOk store h]
    dsimp only
    congr 1
    funext ing
    rw [tickItem_snd]
  · rw [tick_ok_eq r respond (fun _ => true) store h]
    rw [tick_ok_eq r respond (fun _ => true) _ h]
    dsimp only
    rw [List.filterMap_map]
    refine List.filterMap_eq_nil_iff.mpr ?_
    intro ing _
    have h2 := tickItem_twice r (desired (r.ips.filter (isHealthy respond))) ing
    simp only [Function.comp_apply, h2]

/-- C5 witness: the stale and fresh matching objects are each patched exactly
once, the nil-annotation and other-class objects are not, and the repeated
cycle issues no write. -/
theorem patch_iff_value_differs_witness :
    (runnerEx.tick respondEx true (fun _ => true)
        [ingStale, ingNil, ingOther, ingFresh]).patchCalls
      = [("default", "a"), ("prod", "d")]
    ∧ (runnerEx.tick respondEx true (fun _ => true)
        (runnerEx.tick respondEx true (fun _ => true)
          [ingStale, ingNil, ingOther, ingFresh]).store).patchCalls = [] := by
  have h := patch_iff_value_differs runnerEx respondEx (fun _ => true)
    [ingStale, ingNil, ingOther, ingFresh] (by decide)
  refine ⟨?_, h.2⟩
  rw [h.1]
  decide

/-- C6: in class-matching mode a cycle leaves every object whose class
annotation is absent (including a nil annotations map) or different from the
configured class exactly unchanged in the store, in every branch of the cycle. -/
theorem class_mismatch_untouched (r : Runner) (respond : String → Option Nat)
    (listOk : Bool) (patchOk : Ingress → Bool) (store : List Ingress)
    (i : Nat) (h : i < store.length)
    (hm : classMatches r (store.get ⟨i, h⟩) = false) :
    (r.tick respond listOk patchOk store).store.get? i = some (store.get ⟨i, h⟩) := by
  by_cases hf : r.ips.filter (isHealthy respond) = []
  · rw [tick_noHealthy_eq r respond listOk patchOk store hf]
    simp [List.get?_eq_get h]
  · cases listOk with
    | false =>
      rw [tick_listFail_eq r respond patchOk store hf]
      simp [List.get?_eq_get h]
    | true =>
      rw [tick_ok_eq r respond patchOk store hf]
      dsimp only
      rw [List.get?_map, List.get?_eq_get h]
      have hfst := tickItem_fst_nomatch r (desired (r.ips.filter (isHealthy respond)))
        patchOk (store.get ⟨i, h⟩) hm
      simp only [List.get_eq_getElem] at hfst
      simp [hfst]

/-- C6 witness: the nil-annotation object and the other-class object are left
exactly as they were by the successful cycle. -/
theorem class_mismatch_untouched_witness :
    (runnerEx.tick respondEx true (fun _ => true)
        [ingStale, ingNil, ingOther, ingFresh]).store.get? 1 = some ingNil
    ∧ (runnerEx.tick respondEx true (fun _ => true)
        [ingStale, ingNil, ingOther, ingFresh]).store.get? 2 = some ingOther := by
  constructor
  · exact class_mismatch_untouched runnerEx respondEx true (fun _ => true)
      [ingStale, ingNil, ingOther, ingFresh] 1 (by decide) (by decide)
  · exact class_mismatch_untouched runnerEx respondEx true (fun _ => true)
      [ingStale, ingNil, ingOther, ingFresh] 2 (by decide) (by decide)

/-- C7: the Patch calls a cycle issues do not depend on which patches fail —
every matching object is still attempted — and the outcome for one object
depends only on its own patch result, never on another object's failure. -/
theorem patch_failure_isolated (r : Runner) (respond : String → Option Nat)
    (listOk : Bool) (store : List Ingress) (p1 p2 : Ingress → Bool) :
    (r.tick respond listOk p1 store).patchCalls
      = (r.tick respond listOk p2 store).patchCalls
    ∧ ∀ i, ∀ h : i < store.length, p1 (store.get ⟨i, h⟩) = p2 (store.get ⟨i, h⟩) →
        (r.tick respond listOk p1 store).store.get? i
          = (r.tick respond listOk p2 store).store.get? i := by
  by_cases hf : r.ips.filter (isHealthy respond) = []
  · rw [tick_noHealthy_eq r respond listOk p1 store hf,
      tick_noHealthy_eq r respond listOk p2 store hf]
    exact ⟨rfl, fun i h _ => rfl⟩
  · cases listOk with
    | false =>
      rw [tick_listFail_eq r respond p1 store hf, tick_listFail_eq r respond p2 store hf]
      exact ⟨rfl, fun i h _ => rfl⟩
    | true =>
      rw [tick_ok_eq r respond p1 store hf, tick_ok_eq r respond p2 store hf]
      dsimp only
      constructor
      · congr 1
        funext ing
        rw [tickItem_snd, tickItem_snd]
      · intro i h hp
        rw [List.get?_map, List.get?_map, List.get?_eq_get h]
        have hc := tickItem_congr r (desired (r.ips.filter (isHealthy respond)))
          p1 p2 (store.get ⟨i, h⟩) hp
        simp only [List.get_eq_getElem] at hc
        simp [hc]

/-- C7 witness: with the patch of the first matching object failing, the second
matching object is still attempted and ends in the same state as when every
patch succeeds. -/
theorem patch_failure_isolated_witness :
    (runnerEx.tick respondEx true (fun ing => decide (ing.name ≠ "a"))
        [ingStale, ingNil, ingOther, ingFresh]).patchCalls
      = (runnerEx.tick respondEx true (fun _ => true)
          [ingStale, ingNil, ingOther, ingFresh]).patchCalls
    ∧ (runnerEx.tick respondEx true (fun ing => decide (ing.name ≠ "a"))
        [ingStale, ingNil, ingOther, ingFresh]).store.get? 3
      = (runnerEx.tick respondEx true (fun _ => true)
          [ingStale, ingNil, ingOther, ingFresh]).store.get? 3 := by
  have h := patch_failure_isolated runnerEx respondEx true
    [ingStale, ingNil, ingOther, ingFresh]
    (fun ing => decide (ing.name ≠ "a")) (fun _ => true)
  exact ⟨h.1, h.2 3 (by decide) (by decide)⟩

/-- C8 counterexample: with the TIMEOUT environment override set (parsing to 5)
and the -timeout flag at its default 2, the per-request timeout of the HTTP
client is 5, but the cycle deadline for one target is 2 — not the configured
per-request timeout times max(1, targetCount), because main.go line 109 reads
the flag value directly and ignores the environment override. -/
theorem cycleTimeout_env_counterexample :
    getDuration (some 5) 2 = 5
    ∧ cycleTimeout 2 ["10.0.0.1"] = 2
    ∧ cycleTimeout 2 ["10.0.0.1"]
        ≠ getDuration (some 5) 2 * max 1 ((["10.0.0.1"] : List String).length : Int) := by
  refine ⟨rfl, by decide, by decide⟩

/-- C8 (amended): the cycle deadline equals the flag-resolved timeout times
max(1, targetCount) — which is the configured per-request timeout whenever the
TIMEOUT environment override is unset — and, the probe loop issuing exactly one
request per target, a per-request budget of the flag timeout keeps the whole
probe phase within the deadline. -/
theorem cycleTimeout_flag_formula (r : Runner) (respond : String → Option Nat)
    (flagT : Int) :
    cycleTimeout flagT r.ips
      = flagT * (if r.ips.length = 0 then 1 else (r.ips.length : Int))
    ∧ getDuration none flagT = flagT
    ∧ (0 ≤ flagT →
        ((probeRun r respond).1.length : Int) * flagT ≤ cycleTimeout flagT r.ips) := by
  refine ⟨?_, rfl, ?_⟩
  · unfold cycleTimeout max
    by_cases h : r.ips.length = 0
    · simp [h]
    · have h1 : ¬((1 : Int) > (r.ips.length : Int)) := by
        have : 1 ≤ r.ips.length := Nat.one_le_iff_ne_zero.mpr h
        omega
      rw [if_neg h1, if_neg h]
  · intro hT
    rw [probeRun_eq]
    simp only [List.length_map]
    unfold cycleTimeout max
    by_cases h : (1 : Int) > (r.ips.length : Int)
    · rw [if_pos h]
      have hz : (r.ips.length : Int) = 0 := by omega
      rw [hz]
      simpa using hT
    · rw [if_neg h]
      rw [Int.mul_comm]

/-- C8 amended witness: two targets, flag timeout 2 — the deadline is 4 and the
two requests fit the budget. -/
theorem cycleTimeout_flag_formula_witness :
    cycleTimeout 2 runnerEx.ips
      = 2 * (if runnerEx.ips.length = 0 then 1 else (runnerEx.ips.length : Int))
    ∧ ((probeRun runnerEx respondEx).1.length : Int) * 2 ≤ cycleTimeout 2 runnerEx.ips := by
  have h := cycleTimeout_flag_formula runnerEx respondEx 2
  exact ⟨h.1, h.2.2 (by decide)⟩

/-- C9: the code evaluated at the failing test input — one target probed over
http at the root path, the test expecting the Host header example.com — issues
a GET request with no Host override at all: the Runner struct has no
host-header field and `HealthyIPs` never assigns req.Host. -/
theorem probe_request_no_host_override :
    (probeRun runnerSingle (fun _ => some 200)).1
      = [{ method := "GET", url := "http://127.0.0.1:80/", hostOverride := none }]
    ∧ (probeRun runnerSingle (fun _ => some 200)).1.all
        (fun req => req.hostOverride == none) = true := by
  refine ⟨by decide, by decide⟩

/-- C10: `splitAndTrim` returns the comma-separated fields in order, trimmed,
with empty fields dropped; the result never contains the empty string; and an
input of only commas and blanks yields the empty target list while passing the
startup missing-config check, which tests only the raw string. -/
theorem splitAndTrim_ordered_trimmed :
    (∀ csv : String, splitAndTrim csv
        = ((split csv).map trimSpace).filter (fun s => decide (s ≠ "")))
    ∧ (∀ csv : String, "" ∉ splitAndTrim csv)
    ∧ missingIPs " , ," = false
    ∧ splitAndTrim " , ," = [] := by
  refine ⟨splitAndTrim_eq, ?_, by decide, by decide⟩
  intro csv hmem
  rw [splitAndTrim_eq] at hmem
  have hpred := (List.mem_filter.mp hmem).2
  simp at hpred

/-- C10 witness: a concrete comma-separated value with blanks parses as the
trimmed fields in order and contains no empty string. -/
theorem splitAndTrim_ordered_trimmed_witness :
    splitAndTrim "10.0.0.1, 10.0.0.2 ,,  "
      = ((split "10.0.0.1, 10.0.0.2 ,,  ").map trimSpace).filter (fun s => decide (s ≠ ""))
    ∧ splitAndTrim "10.0.0.1, 10.0.0.2 ,,  " = ["10.0.0.1", "10.0.0.2"]
    ∧ ("" ∈ splitAndTrim "10.0.0.1, 10.0.0.2 ,,  " → False) := by
  refine ⟨splitAndTrim_ordered_trimmed.1 "10.0.0.1, 10.0.0.2 ,,  ", by decide, ?_⟩
  exact fun hm => splitAndTrim_ordered_trimmed.2.1 "10.0.0.1, 10.0.0.2 ,,  " hm

end IngressTargetProber
